import Mathlib

/-!
Verification of the scope-ai-language runtime library (shallow embedding).

The embedding translates the Python sources into pure Lean functions:
- `ClientState`/`should_send`/`query_async`/`runQuery` embed the Ollama
  query clients (`scope_language/_base.py`, `llm.py`, `vlm.py`); time is
  passed explicitly as a rational instead of read from `time.monotonic()`,
  and the background `_query` thread body is split into the spawn
  (`query_async`) and the completion (`runQuery`, parameterised by the
  outcome of the external HTTP call).
- `SenderState`/`update_port`/`send` and `ReceiverState` embed the UDP
  multicast transport (`scope_bus/udp.py`); socket faults are passed as an
  explicit boolean and exceptions become `Except` values.
- `settle_prompt` embeds `_settle_prompt` (`scope_vlm_ollama/pipeline.py`).
- `inject_if_new` embeds `PromptInjector.inject_if_new`
  (`scope_bus/prompt.py`); the output dict's two keys touched by the code
  are modelled as an `OutputBag` record, and the boolean in the result
  records whether the call wrote to the bag (i.e. did not early-return).
- `jsonParse`/`recvDecode`/`poll` embed `UDPReceiver.poll`; `jsonParse`
  models Python's `json.loads` on the JSON subset without `\u` escapes and
  exponent number literals (enough for every payload considered here).
-/

/-! ### Query client state (`_OllamaBase` in `scope_language/_base.py`) -/

/-- Mutable state of one Ollama client (`_OllamaBase.__init__`): last
response text, fire time of the last query, the pending flag, and the
stored callback (modelled by an identifier). -/
structure ClientState where
  last_response : String
  last_send_time : ℚ
  pending : Bool
  callback : Option ℕ
deriving DecidableEq

/-- Initial client state: empty response, zero fire time, not pending. -/
def initClient : ClientState :=
  { last_response := "", last_send_time := 0, pending := false, callback := none }

/-- `_OllamaBase.should_send`: false while pending, else true iff the
interval has elapsed since the last fire time. -/
def should_send (s : ClientState) (interval now : ℚ) : Bool :=
  if s.pending then false
  else decide (now - s.last_send_time ≥ interval)

/-- `_OllamaBase.get_last_response`. -/
def get_last_response (s : ClientState) : String :=
  s.last_response

/-- `_OllamaBase.is_pending`. -/
def is_pending (s : ClientState) : Bool :=
  s.pending

/-- `OllamaLLM.query_async` / `OllamaVLM.query_async` state effect: record
the fire time, set the pending flag, store the callback (the function then
spawns a `_query` thread; the spawn is modelled by `guardedStep.fire`).
Note the code performs no in-flight check here. -/
def query_async (s : ClientState) (now : ℚ) (cb : Option ℕ) : ClientState :=
  { s with last_send_time := now, pending := true, callback := cb }

/-- Outcome of the external HTTP call made by `_query`: either a 2xx
response whose JSON parsed, carrying the stripped response text, or any
raised exception (connection error, non-2xx via `raise_for_status`,
malformed JSON body). -/
inductive QueryOutcome where
  | success (response : String)
  | failure
deriving DecidableEq

/-- `OllamaLLM._query` / `OllamaVLM._query` completion: on success the
response is stored and the stored callback (if any) is invoked with it; on
failure the exception is caught and logged and nothing else happens; in
both cases the `finally` block clears the pending flag. The second
component records the callback invocation performed, if any. -/
def runQuery (s : ClientState) : QueryOutcome → ClientState × Option (ℕ × String)
  | .success r =>
      ({ s with last_response := r, pending := false },
       s.callback.map fun c => (c, r))
  | .failure =>
      ({ s with pending := false }, none)

/-! ### Trace semantics for the single-flight discipline

The pipelines (`scope_vlm_ollama/pipeline.py`, `scope_llm_ollama/...`)
guard every `query_async` call with `not self._vlm.is_pending and ...`.
`guardedStep` models an interleaving of guarded fires and thread
completions, counting the outstanding `_query` threads. -/

/-- A client together with the number of outstanding `_query` threads. -/
structure TraceState where
  client : ClientState
  outstanding : ℕ
deriving DecidableEq

/-- One event on a query client: fire a query (as the pipelines do, only
when `is_pending` is false) or have an outstanding `_query` thread finish
with some outcome. -/
inductive QueryEvent where
  | fire (now : ℚ) (cb : Option ℕ)
  | finish (o : QueryOutcome)

/-- Guarded small step: `fire` is allowed only when the client is not
pending (the callers' guard); `finish` only when a thread is outstanding. -/
def guardedStep : TraceState → QueryEvent → Option TraceState
  | ⟨c, k⟩, .fire now cb =>
      if c.pending then none
      else some ⟨query_async c now cb, k + 1⟩
  | ⟨c, k⟩, .finish o =>
      match k with
      | 0 => none
      | k' + 1 => some ⟨(runQuery c o).1, k'⟩

/-- States reachable from the freshly constructed client by guarded steps. -/
inductive Reachable : TraceState → Prop where
  | init : Reachable ⟨initClient, 0⟩
  | step {t t' : TraceState} {e : QueryEvent} :
      Reachable t → guardedStep t e = some t' → Reachable t'

lemma runQuery_pending_false (s : ClientState) (o : QueryOutcome) :
    (runQuery s o).1.pending = false := by
  cases o <;> rfl

lemma reachable_outstanding (t : TraceState) (h : Reachable t) :
    t.outstanding = if t.client.pending then 1 else 0 := by
  induction h with
  | init => rfl
  | step hr hs ih =>
      rename_i t t' e
      cases e with
      | fire now cb =>
          simp only [guardedStep] at hs
          by_cases hp : t.client.pending
          · simp [hp] at hs
          · simp [hp] at hs
            subst hs
            simp [query_async, ih, hp]
      | finish o =>
          simp only [guardedStep] at hs
          cases hk : t.outstanding with
          | zero => rw [hk] at hs; exact absurd hs (by simp)
          | succ k' =>
              rw [hk] at hs
              simp only [Option.some.injEq] at hs
              subst hs
              rw [hk] at ih
              by_cases hp : t.client.pending
              · simp [hp] at ih
                simp [runQuery_pending_false, ih]
              · simp [hp] at ih

/-! ### Claims C1, C4, C5 -/

/-- Claim C1, counterexample: `query_async` called while a query is in
flight is not a no-op — at a concrete pending state it overwrites the fire
time and the stored callback (the code has no in-flight guard). -/
theorem query_async_inflight_not_noop :
    query_async ⟨"", 0, true, none⟩ 5 (some 1) ≠ ⟨"", 0, true, none⟩ ∧
    (query_async ⟨"", 0, true, none⟩ 5 (some 1)).last_send_time = 5 ∧
    (query_async ⟨"", 0, true, none⟩ 5 (some 1)).callback = some 1 := by
  refine ⟨?_, rfl, rfl⟩
  decide

/-- Claim C1 (amended): `should_send` returns false whenever the pending
flag is set, and under the callers' guarded discipline (fire only when not
pending, as every pipeline does) at most one query is in flight at a time;
`query_async` itself performs no guard. -/
theorem single_flight_guarded :
    (∀ (s : ClientState) (interval now : ℚ), s.pending = true →
        should_send s interval now = false) ∧
    (∀ t : TraceState, Reachable t → t.outstanding ≤ 1) := by
  constructor
  · intro s i n hp
    simp [should_send, hp]
  · intro t h
    rw [reachable_outstanding t h]
    split <;> omega

/-- Witness for `single_flight_guarded` at concrete states. -/
theorem single_flight_guarded_witness :
    ((⟨"", 0, true, some 1⟩ : ClientState).pending = true ∧
      should_send ⟨"", 0, true, some 1⟩ 3 10 = false) ∧
    (Reachable ⟨initClient, 0⟩ ∧ (⟨initClient, 0⟩ : TraceState).outstanding ≤ 1) :=
  ⟨⟨rfl, single_flight_guarded.1 ⟨"", 0, true, some 1⟩ 3 10 rfl⟩,
   ⟨Reachable.init, single_flight_guarded.2 ⟨initClient, 0⟩ Reachable.init⟩⟩

/-- Claim C4: a failed external call is fully absorbed — after
`query_async` at fire time `t` followed by a failing completion, the last
response is unchanged, the pending flag is clear, and `should_send` is
true exactly when `interval` has elapsed since `t`. -/
theorem failure_recovery (s : ClientState) (t : ℚ) (cb : Option ℕ)
    (interval now : ℚ) :
    get_last_response (runQuery (query_async s t cb) .failure).1 =
        get_last_response s ∧
    (runQuery (query_async s t cb) .failure).1.pending = false ∧
    (should_send (runQuery (query_async s t cb) .failure).1 interval now = true ↔
        now - t ≥ interval) := by
  refine ⟨rfl, rfl, ?_⟩
  simp [should_send, runQuery, query_async]

/-- Claim C5, counterexample: on a failing completion the stored callback
is not invoked, although one was provided — the invocation sits inside the
`try` block after the successful response handling. -/
theorem failure_callback_not_invoked :
    (runQuery ⟨"prev", 2, true, some 3⟩ .failure).2 = none ∧
    (⟨"prev", 2, true, some 3⟩ : ClientState).callback ≠ none := by
  exact ⟨rfl, by simp⟩

/-- Claim C5 (amended): on completion the client always returns to Idle;
on success `last_response` is updated and the callback (if provided) is
invoked with the response text; on failure `last_response` is unchanged
and the callback is not invoked. -/
theorem completion_semantics (s : ClientState) (r : String) :
    (runQuery s (.success r)).1.pending = false ∧
    (runQuery s .failure).1.pending = false ∧
    (runQuery s (.success r)).1.last_response = r ∧
    (runQuery s (.success r)).2 = s.callback.map (fun c => (c, r)) ∧
    (runQuery s .failure).1.last_response = s.last_response ∧
    (runQuery s .failure).2 = none :=
  ⟨rfl, rfl, rfl, rfl, rfl, rfl⟩

/-! ### UDP sender debounce (`UDPSender` in `scope_bus/udp.py`) -/

/-- `_REBIND_DELAY`: seconds to wait after a port change before rebinding. -/
def REBIND_DELAY : ℚ := 3

/-- Mutable state of `UDPSender`: current port, pending port proposal, and
the time the pending proposal was last changed. -/
structure SenderState where
  port : ℕ
  pending_port : Option ℕ
  port_changed_at : ℚ
deriving DecidableEq

/-- `UDPSender.__init__` state. -/
def initSender (port : ℕ) : SenderState :=
  { port := port, pending_port := none, port_changed_at := 0 }

/-- `UDPSender.update_port` (and, for its shared debounce logic,
`UDPReceiver.update_port`), with `time.monotonic()` passed as `now`. -/
def update_port (s : SenderState) (new_port : ℕ) (now : ℚ) : SenderState :=
  if new_port = s.port then { s with pending_port := none }
  else if some new_port ≠ s.pending_port then
    { s with pending_port := some new_port, port_changed_at := now }
  else if now - s.port_changed_at ≥ REBIND_DELAY then
    { s with port := new_port, pending_port := none }
  else s

/-! ### Prompt settle gate (`_settle_prompt` in `scope_vlm_ollama/pipeline.py`) -/

/-- `_settle_prompt`, with `time.monotonic()` passed as `now`. Returns
`(active_prompt, pending_prompt, changed_at)`. -/
def settle_prompt (new_prompt pending active : String)
    (changed_at now settle_time : ℚ) : String × String × ℚ :=
  if new_prompt ≠ pending then (active, new_prompt, now)
  else if settle_time = 0 ∨ now - changed_at ≥ settle_time then
    (pending, pending, changed_at)
  else (active, pending, changed_at)

/-- Fold `settle_prompt` over a sequence of timed proposals, as the
pipeline does once per frame. -/
def runSettle (settle_time : ℚ) :
    String × String × ℚ → List (String × ℚ) → String × String × ℚ
  | st, [] => st
  | (a, p, c), (v, t) :: rest =>
      runSettle settle_time (settle_prompt v p a c t settle_time) rest

/-- Fold `update_port` over a sequence of timed port proposals. -/
def runPorts : SenderState → List (ℕ × ℚ) → SenderState
  | s, [] => s
  | s, (v, t) :: rest => runPorts (update_port s v t) rest

/-- A burst of identical proposals: the value, the time of its first
proposal, and the times of the following re-proposals. -/
structure Burst (α : Type) where
  val : α
  t0 : ℚ
  rest : List ℚ

/-- The timed calls a single burst produces. -/
def burstCalls {α : Type} (b : Burst α) : List (α × ℚ) :=
  (b.val, b.t0) :: b.rest.map fun t => (b.val, t)

/-- The timed calls a sequence of bursts produces. -/
def burstsCalls {α : Type} : List (Burst α) → List (α × ℚ)
  | [] => []
  | b :: bs => burstCalls b ++ burstsCalls bs

lemma runSettle_append (settle : ℚ) (st : String × String × ℚ)
    (l₁ l₂ : List (String × ℚ)) :
    runSettle settle st (l₁ ++ l₂) = runSettle settle (runSettle settle st l₁) l₂ := by
  induction l₁ generalizing st with
  | nil => rfl
  | cons hd tl ih =>
      obtain ⟨v, t⟩ := hd
      obtain ⟨a, p, c⟩ := st
      simp only [List.cons_append, runSettle]
      exact ih _

lemma runPorts_append (s : SenderState) (l₁ l₂ : List (ℕ × ℚ)) :
    runPorts s (l₁ ++ l₂) = runPorts (runPorts s l₁) l₂ := by
  induction l₁ generalizing s with
  | nil => rfl
  | cons hd tl ih =>
      obtain ⟨v, t⟩ := hd
      simp only [List.cons_append, runPorts]
      exact ih _

lemma settle_prompt_new (v p a : String) (c t settle : ℚ) (h : v ≠ p) :
    settle_prompt v p a c t settle = (a, v, t) := by
  simp [settle_prompt, h]

lemma settle_prompt_early (v a : String) (c t settle : ℚ) (h0 : settle ≠ 0)
    (h : t - c < settle) : settle_prompt v v a c t settle = (a, v, c) := by
  simp [settle_prompt, h0, not_le.mpr h]

lemma settle_prompt_commit (v a : String) (c t settle : ℚ)
    (h : settle = 0 ∨ t - c ≥ settle) : settle_prompt v v a c t settle = (v, v, c) := by
  rcases h with h | h <;> simp [settle_prompt, h]

lemma runSettle_hold (settle : ℚ) (a v : String) (t0 : ℚ) (ts : List ℚ)
    (h0 : settle ≠ 0) (h : ∀ t ∈ ts, t - t0 < settle) :
    runSettle settle (a, v, t0) (ts.map fun t => (v, t)) = (a, v, t0) := by
  induction ts with
  | nil => rfl
  | cons t ts ih =>
      simp only [List.map_cons, runSettle]
      rw [settle_prompt_early v a t0 t settle h0 (h t (List.mem_cons_self t ts))]
      exact ih fun t' ht' => h t' (List.mem_cons_of_mem t ht')

lemma runSettle_burst (settle : ℚ) (a p : String) (c : ℚ) (b : Burst String)
    (h0 : settle ≠ 0) (hne : b.val ≠ p) (hshort : ∀ t ∈ b.rest, t - b.t0 < settle) :
    runSettle settle (a, p, c) (burstCalls b) = (a, b.val, b.t0) := by
  simp only [burstCalls, runSettle]
  rw [settle_prompt_new b.val p a c b.t0 settle hne]
  exact runSettle_hold settle a b.val b.t0 b.rest h0 hshort

/-- Oscillating proposals — adjacent bursts carry distinct values, every
burst is shorter than the settle window — never change the active prompt. -/
lemma runSettle_osc (settle : ℚ) (a : String) (h0 : settle ≠ 0) :
    ∀ (bs : List (Burst String)) (p : String) (c : ℚ),
      List.Chain (fun x y => x ≠ y) p (bs.map Burst.val) →
      (∀ b ∈ bs, ∀ t ∈ b.rest, t - b.t0 < settle) →
      (runSettle settle (a, p, c) (burstsCalls bs)).1 = a := by
  intro bs
  induction bs with
  | nil => intro p c _ _; rfl
  | cons b bs ih =>
      intro p c hchain hshort
      cases hchain with
      | cons hr htail =>
          rw [burstsCalls, runSettle_append,
            runSettle_burst settle a p c b h0 hr.symm
              (hshort b (List.mem_cons_self b bs))]
          exact ih b.val b.t0 htail
            fun b' hb' => hshort b' (List.mem_cons_of_mem b hb')

lemma update_port_same (s : SenderState) (v : ℕ) (t : ℚ) (h : v = s.port) :
    update_port s v t = { s with pending_port := none } := by
  simp [update_port, h]

lemma update_port_propose (s : SenderState) (v : ℕ) (t : ℚ) (hv : v ≠ s.port)
    (hp : some v ≠ s.pending_port) :
    update_port s v t = { s with pending_port := some v, port_changed_at := t } := by
  simp [update_port, hv, hp]

lemma update_port_early (s : SenderState) (v : ℕ) (t : ℚ) (hv : v ≠ s.port)
    (hp : s.pending_port = some v) (ht : t - s.port_changed_at < REBIND_DELAY) :
    update_port s v t = s := by
  simp [update_port, hv, hp, not_le.mpr ht]

lemma update_port_commit (s : SenderState) (v : ℕ) (t : ℚ) (hv : v ≠ s.port)
    (hp : s.pending_port = some v) (ht : t - s.port_changed_at ≥ REBIND_DELAY) :
    update_port s v t = { s with port := v, pending_port := none } := by
  simp [update_port, hv, hp, ht]

lemma runPorts_hold (v : ℕ) (ts : List ℚ) :
    ∀ s : SenderState, v ≠ s.port → s.pending_port = some v →
      (∀ t ∈ ts, t - s.port_changed_at < REBIND_DELAY) →
      runPorts s (ts.map fun t => (v, t)) = s := by
  induction ts with
  | nil => intro s _ _ _; rfl
  | cons t ts ih =>
      intro s hv hp h
      simp only [List.map_cons, runPorts]
      rw [update_port_early s v t hv hp (h t (List.mem_cons_self t ts))]
      exact ih s hv hp fun t' ht' => h t' (List.mem_cons_of_mem t ht')

lemma runPorts_clear (v : ℕ) (ts : List ℚ) :
    ∀ s : SenderState, v = s.port → s.pending_port = none →
      runPorts s (ts.map fun t => (v, t)) = s := by
  induction ts with
  | nil => intro s _ _; rfl
  | cons t ts ih =>
      intro s hv hp
      simp only [List.map_cons, runPorts]
      rw [update_port_same s v t hv]
      have hs : ({ s with pending_port := none } : SenderState) = s := by
        rw [← hp]
      rw [hs]
      exact ih s hv hp

lemma runPorts_burst_same (s : SenderState) (b : Burst ℕ) (hv : b.val = s.port) :
    runPorts s (burstCalls b) = { s with pending_port := none } := by
  simp only [burstCalls, runPorts]
  rw [update_port_same s b.val b.t0 hv]
  exact runPorts_clear b.val b.rest _ hv rfl

lemma runPorts_burst_new (s : SenderState) (b : Burst ℕ) (hv : b.val ≠ s.port)
    (hp : some b.val ≠ s.pending_port)
    (hshort : ∀ t ∈ b.rest, t - b.t0 < REBIND_DELAY) :
    runPorts s (burstCalls b) =
      { s with pending_port := some b.val, port_changed_at := b.t0 } := by
  simp only [burstCalls, runPorts]
  rw [update_port_propose s b.val b.t0 hv hp]
  exact runPorts_hold b.val b.rest _ hv rfl hshort

/-- Oscillating port proposals never change the committed port. -/
lemma runPorts_osc :
    ∀ (bs : List (Burst ℕ)) (s : SenderState),
      (∀ b ∈ bs, ∀ t ∈ b.rest, t - b.t0 < REBIND_DELAY) →
      List.Chain' (fun x y => x ≠ y) (bs.map Burst.val) →
      (∀ b, bs.head? = some b → some b.val ≠ s.pending_port) →
      (runPorts s (burstsCalls bs)).port = s.port := by
  intro bs
  induction bs with
  | nil => intro s _ _ _; rfl
  | cons b bs ih =>
      intro s hshort hchain hhead
      rw [burstsCalls, runPorts_append]
      by_cases hv : b.val = s.port
      · rw [runPorts_burst_same s b hv]
        rw [ih { s with pending_port := none }
          (fun b' hb' => hshort b' (List.mem_cons_of_mem b hb'))
          (by
            cases bs with
            | nil => exact List.chain'_nil
            | cons b' bs' => exact (List.chain'_cons.mp hchain).2)
          (fun b' hb' => by simp)]
      · rw [runPorts_burst_new s b hv (hhead b rfl)
          (hshort b (List.mem_cons_self b bs))]
        exact ih { s with pending_port := some b.val, port_changed_at := b.t0 }
          (fun b' hb' => hshort b' (List.mem_cons_of_mem b hb'))
          (by
            cases bs with
            | nil => exact List.chain'_nil
            | cons b' bs' => exact (List.chain'_cons.mp hchain).2)
          (fun b' hb' => by
            cases bs with
            | nil => exact absurd hb' (by simp)
            | cons b'' bs' =>
                simp only [List.head?_cons, Option.some.injEq] at hb'
                subst hb'
                have hne : b.val ≠ b''.val := (List.chain'_cons.mp hchain).1
                simp [hne.symm])

/-! ### Claims C2, C3 -/

/-- Claim C2: debounce correctness for both debounced values.
(i) Prompt settle gate: a value V distinct from the active and pending
prompts, proposed at `t0` and re-proposed at times inside the settle
window, is recorded but never committed early, and the first re-proposal
at or after `t0 + settle` commits it; (ii) oscillating prompt proposals
(adjacent bursts distinct, each burst shorter than the window) never
change the active prompt; (iii) the same stability property for
`update_port` with the fixed 3-second window; (iv) oscillating port
proposals never change the committed port — each new distinct value
resets the settle timer. -/
theorem debounce_stability :
    (∀ (a p V : String) (c t0 settle t' : ℚ) (ts : List ℚ),
      V ≠ p → settle ≠ 0 → (∀ t ∈ ts, t - t0 < settle) → t' - t0 ≥ settle →
      runSettle settle (a, p, c) ((V, t0) :: ts.map fun t => (V, t)) =
          (a, V, t0) ∧
      runSettle settle (a, p, c)
          (((V, t0) :: ts.map fun t => (V, t)) ++ [(V, t')]) = (V, V, t0)) ∧
    (∀ (bs : List (Burst String)) (a p : String) (c settle : ℚ),
      settle ≠ 0 →
      List.Chain (fun x y => x ≠ y) p (bs.map Burst.val) →
      (∀ b ∈ bs, ∀ t ∈ b.rest, t - b.t0 < settle) →
      (runSettle settle (a, p, c) (burstsCalls bs)).1 = a) ∧
    (∀ (s : SenderState) (V : ℕ) (t0 t' : ℚ) (ts : List ℚ),
      V ≠ s.port → some V ≠ s.pending_port →
      (∀ t ∈ ts, t - t0 < REBIND_DELAY) → t' - t0 ≥ REBIND_DELAY →
      runPorts s ((V, t0) :: ts.map fun t => (V, t)) =
          { s with pending_port := some V, port_changed_at := t0 } ∧
      runPorts s (((V, t0) :: ts.map fun t => (V, t)) ++ [(V, t')]) =
          { s with port := V, pending_port := none, port_changed_at := t0 }) ∧
    (∀ (bs : List (Burst ℕ)) (s : SenderState),
      (∀ b ∈ bs, ∀ t ∈ b.rest, t - b.t0 < REBIND_DELAY) →
      List.Chain' (fun x y => x ≠ y) (bs.map Burst.val) →
      (∀ b, bs.head? = some b → some b.val ≠ s.pending_port) →
      (runPorts s (burstsCalls bs)).port = s.port) := by
  refine ⟨?_, ?_, ?_, ?_⟩
  · intro a p V c t0 settle t' ts hne h0 hshort ht'
    have h1 : runSettle settle (a, p, c) ((V, t0) :: ts.map fun t => (V, t)) =
        (a, V, t0) :=
      runSettle_burst settle a p c ⟨V, t0, ts⟩ h0 hne hshort
    refine ⟨h1, ?_⟩
    rw [runSettle_append, h1]
    have h2 : runSettle settle (a, V, t0) [(V, t')] =
        settle_prompt V V a t0 t' settle := rfl
    rw [h2, settle_prompt_commit V a t0 t' settle (Or.inr ht')]
  · intro bs a p c settle h0 hchain hshort
    exact runSettle_osc settle a h0 bs p c hchain hshort
  · intro s V t0 t' ts hv hp hshort ht'
    have h1 : runPorts s ((V, t0) :: ts.map fun t => (V, t)) =
        { s with pending_port := some V, port_changed_at := t0 } :=
      runPorts_burst_new s ⟨V, t0, ts⟩ hv hp hshort
    refine ⟨h1, ?_⟩
    rw [runPorts_append, h1]
    have h2 : runPorts { s with pending_port := some V, port_changed_at := t0 } [(V, t')] =
        update_port { s with pending_port := some V, port_changed_at := t0 } V t' := rfl
    rw [h2, update_port_commit
      { s with pending_port := some V, port_changed_at := t0 } V t' hv rfl ht']
  · intro bs s hshort hchain hhead
    exact runPorts_osc bs s hshort hchain hhead

/-- Witness for `debounce_stability` at concrete proposal traces. -/
theorem debounce_stability_witness :
    (("B" : String) ≠ "A" ∧ (2 : ℚ) ≠ 0 ∧
      (∀ t ∈ ([11] : List ℚ), t - 10 < 2) ∧ (12 : ℚ) - 10 ≥ 2 ∧
      runSettle 2 ("A", "A", 0) [("B", 10), ("B", 11)] = ("A", "B", 10) ∧
      runSettle 2 ("A", "A", 0) [("B", 10), ("B", 11), ("B", 12)] =
          ("B", "B", 10)) ∧
    ((runSettle 2 ("A", "A", 0)
        (burstsCalls [⟨"B", 0, [1]⟩, ⟨"C", 3, []⟩])).1 = "A") ∧
    ((9500 : ℕ) ≠ 9400 ∧
      runPorts ⟨9400, none, 0⟩ [(9500, 0), (9500, 1), (9500, 2)] =
          ⟨9400, some 9500, 0⟩ ∧
      runPorts ⟨9400, none, 0⟩ [(9500, 0), (9500, 1), (9500, 2), (9500, 3)] =
          ⟨9500, none, 0⟩) ∧
    ((runPorts ⟨9400, none, 0⟩
        (burstsCalls [⟨9500, 0, [1]⟩, ⟨9600, 2, []⟩])).port = 9400) := by
  have hts : ∀ t ∈ ([11] : List ℚ), t - 10 < 2 := by
    intro t ht
    simp only [List.mem_singleton] at ht
    subst ht
    norm_num
  have h1 := debounce_stability.1 "A" "A" "B" 0 10 2 12 [11]
    (by decide) (by norm_num) hts (by norm_num)
  have h2 := debounce_stability.2.1 [⟨"B", 0, [1]⟩, ⟨"C", 3, []⟩] "A" "A" 0 2
    (by norm_num)
    (List.chain_cons.mpr ⟨by decide,
      List.chain_cons.mpr ⟨by decide, List.Chain.nil⟩⟩)
    (by
      rintro b hb t ht
      fin_cases hb <;> simp_all)
  have h3 := debounce_stability.2.2.1 ⟨9400, none, 0⟩ 9500 0 3 [1, 2]
    (by decide) (by simp)
    (by
      intro t ht
      fin_cases ht <;> norm_num [REBIND_DELAY])
    (by norm_num [REBIND_DELAY])
  have h4 := debounce_stability.2.2.2 [⟨9500, 0, [1]⟩, ⟨9600, 2, []⟩]
    ⟨9400, none, 0⟩
    (by
      rintro b hb t ht
      fin_cases hb <;> simp_all [REBIND_DELAY])
    (List.chain'_pair.mpr (by decide))
    (by
      intro b hb
      simp only [List.head?_cons, Option.some.injEq] at hb
      subst hb
      simp)
  exact ⟨⟨by decide, by norm_num, hts, by norm_num, h1.1, h1.2⟩,
    h2, ⟨by decide, h3.1, h3.2⟩, h4⟩

/-- Claim C3, counterexample: with `settle_time = 0` the very first
proposal of a new value does not commit — the call still returns the old
active prompt, and a second call is required. -/
theorem settle_zero_first_call_no_commit :
    (settle_prompt "B" "A" "A" 0 5 0).1 = "A" ∧
    (settle_prompt "B" "A" "A" 0 5 0).1 ≠ "B" := by
  decide

/-- Claim C3 (amended): with `settle_time = 0` the first proposal of a
value distinct from the pending prompt records it without committing, and
the second call proposing the same value commits immediately, regardless
of elapsed time (even zero). -/
theorem settle_zero_two_calls (V p a : String) (c t₁ t₂ : ℚ) (h : V ≠ p) :
    settle_prompt V p a c t₁ 0 = (a, V, t₁) ∧
    settle_prompt V V a t₁ t₂ 0 = (V, V, t₁) :=
  ⟨settle_prompt_new V p a c t₁ 0 h,
   settle_prompt_commit V a t₁ t₂ 0 (Or.inl rfl)⟩

/-- Witness for `settle_zero_two_calls`: two same-instant calls suffice. -/
theorem settle_zero_two_calls_witness :
    ("B" : String) ≠ "A" ∧
    settle_prompt "B" "A" "A" 0 5 0 = ("A", "B", 5) ∧
    settle_prompt "B" "B" "A" 5 5 0 = ("B", "B", 5) :=
  ⟨by decide, (settle_zero_two_calls "B" "A" "A" 0 5 5 (by decide)).1,
   (settle_zero_two_calls "B" "A" "A" 0 5 5 (by decide)).2⟩

/-! ### Prompt injection (`PromptInjector` in `scope_bus/prompt.py`) -/

/-- A prompt entry `\x7b"text": ..., "weight": ...\x7d`. -/
structure PromptEntry where
  text : String
  weight : ℚ
deriving DecidableEq

/-- The transition object written to `output["transition"]`. -/
structure Transition where
  target_prompts : List PromptEntry
  num_steps : ℤ
  temporal_interpolation_method : String
deriving DecidableEq

/-- The two keys of the pipeline output dict that `inject_if_new` touches:
`"prompts"` (an absent key is `none`, read back as `[]` by
`output.get("prompts", [])`) and `"transition"`. -/
structure OutputBag where
  prompts : Option (List PromptEntry)
  transition : Option Transition
deriving DecidableEq

/-- `PromptInjector.inject_if_new`. Components of the result: the ledger's
`_last_injected` after the call, the output bag after the call, and
whether the call injected (false exactly when the code takes the early
`return`). -/
def inject_if_new (last_injected : String) (output : OutputBag) (text : String)
    (weight : ℚ) (transition_steps : ℤ) (method : String) :
    String × OutputBag × Bool :=
  if text = "" ∨ text = last_injected then (last_injected, output, false)
  else
    let entry : PromptEntry := ⟨text, weight⟩
    if transition_steps > 0 then
      (text,
       { output with transition := some ⟨[entry], transition_steps, method⟩ },
       true)
    else
      (text,
       { output with prompts := some (output.prompts.getD [] ++ [entry]) },
       true)

lemma inject_if_new_skip (last : String) (o : OutputBag) (text : String)
    (w : ℚ) (steps : ℤ) (m : String) (h : text = "" ∨ text = last) :
    inject_if_new last o text w steps m = (last, o, false) := by
  simp only [inject_if_new, if_pos h]

lemma inject_if_new_transition (last : String) (o : OutputBag) (text : String)
    (w : ℚ) (steps : ℤ) (m : String) (h1 : text ≠ "") (h2 : text ≠ last)
    (hs : 0 < steps) :
    inject_if_new last o text w steps m =
      (text, { o with transition := some ⟨[⟨text, w⟩], steps, m⟩ }, true) := by
  have hcond : ¬(text = "" ∨ text = last) := by simp [h1, h2]
  simp only [inject_if_new, if_neg hcond, if_pos hs]

lemma inject_if_new_append (last : String) (o : OutputBag) (text : String)
    (w : ℚ) (steps : ℤ) (m : String) (h1 : text ≠ "") (h2 : text ≠ last)
    (hs : ¬ 0 < steps) :
    inject_if_new last o text w steps m =
      (text, { o with prompts := some (o.prompts.getD [] ++ [⟨text, w⟩]) },
       true) := by
  have hcond : ¬(text = "" ∨ text = last) := by simp [h1, h2]
  simp only [inject_if_new, if_neg hcond, if_neg hs]

/-! ### Claims C6, C7 -/

/-- Claim C6: `inject_if_new` is a no-op (ledger and output unchanged)
when the text is empty or equals the last injected text; a call with a
new non-empty text injects and updates the ledger, so a second call with
the same text is an exact no-op (the output is mutated exactly once), and
a further call with a different non-empty text injects again. -/
theorem inject_idempotent (last : String) (o : OutputBag) (text text' : String)
    (w w' : ℚ) (steps steps' : ℤ) (m m' : String)
    (h1 : text ≠ "") (h2 : text ≠ last) (h3 : text' ≠ "") (h4 : text' ≠ text) :
    inject_if_new last o "" w steps m = (last, o, false) ∧
    inject_if_new last o last w steps m = (last, o, false) ∧
    (inject_if_new last o text w steps m).1 = text ∧
    (inject_if_new last o text w steps m).2.2 = true ∧
    inject_if_new text (inject_if_new last o text w steps m).2.1 text w steps m =
      (text, (inject_if_new last o text w steps m).2.1, false) ∧
    (inject_if_new text (inject_if_new last o text w steps m).2.1
        text' w' steps' m').2.2 = true := by
  refine ⟨inject_if_new_skip last o "" w steps m (Or.inl rfl),
    inject_if_new_skip last o last w steps m (Or.inr rfl), ?_, ?_,
    inject_if_new_skip text _ text w steps m (Or.inr rfl), ?_⟩
  · by_cases hs : 0 < steps
    · rw [inject_if_new_transition last o text w steps m h1 h2 hs]
    · rw [inject_if_new_append last o text w steps m h1 h2 hs]
  · by_cases hs : 0 < steps
    · rw [inject_if_new_transition last o text w steps m h1 h2 hs]
    · rw [inject_if_new_append last o text w steps m h1 h2 hs]
  · by_cases hs : 0 < steps'
    · rw [inject_if_new_transition text _ text' w' steps' m' h3 h4 hs]
    · rw [inject_if_new_append text _ text' w' steps' m' h3 h4 hs]

/-- Witness for `inject_idempotent` on an initially empty ledger and bag. -/
theorem inject_idempotent_witness :
    (("cat" : String) ≠ "" ∧ ("cat" : String) ≠ "" ∧
      ("dog" : String) ≠ "" ∧ ("dog" : String) ≠ "cat") ∧
    inject_if_new "" ⟨none, none⟩ "" 100 0 "slerp" = ("", ⟨none, none⟩, false) ∧
    (inject_if_new "" ⟨none, none⟩ "cat" 100 0 "slerp").1 = "cat" ∧
    (inject_if_new "" ⟨none, none⟩ "cat" 100 0 "slerp").2.2 = true ∧
    inject_if_new "cat" (inject_if_new "" ⟨none, none⟩ "cat" 100 0 "slerp").2.1
        "cat" 100 0 "slerp" =
      ("cat", (inject_if_new "" ⟨none, none⟩ "cat" 100 0 "slerp").2.1, false) ∧
    (inject_if_new "cat" (inject_if_new "" ⟨none, none⟩ "cat" 100 0 "slerp").2.1
        "dog" 100 0 "slerp").2.2 = true := by
  have h := inject_idempotent "" ⟨none, none⟩ "cat" "dog" 100 100 0 0
    "slerp" "slerp" (by decide) (by decide) (by decide) (by decide)
  exact ⟨⟨by decide, by decide, by decide, by decide⟩,
    h.1, h.2.2.1, h.2.2.2.1, h.2.2.2.2.1, h.2.2.2.2.2⟩

/-- Claim C7: an injecting call with `transition_steps > 0` sets the
single transition field to target exactly `[\x7btext, weight\x7d]`
(replacing any prior transition) and leaves the prompts sequence
untouched; with `transition_steps = 0` it appends `\x7btext, weight\x7d`
to the prompts sequence, preserving every pre-existing entry in order,
and does not set a transition. -/
theorem inject_branch_semantics (last : String) (o : OutputBag) (text : String)
    (w : ℚ) (steps : ℤ) (m : String) (h1 : text ≠ "") (h2 : text ≠ last) :
    (0 < steps →
      (inject_if_new last o text w steps m).2.1.transition =
          some ⟨[⟨text, w⟩], steps, m⟩ ∧
      (inject_if_new last o text w steps m).2.1.prompts = o.prompts) ∧
    (steps = 0 →
      (inject_if_new last o text w steps m).2.1.prompts =
          some (o.prompts.getD [] ++ [⟨text, w⟩]) ∧
      (inject_if_new last o text w steps m).2.1.transition = o.transition) := by
  constructor
  · intro hs
    rw [inject_if_new_transition last o text w steps m h1 h2 hs]
    exact ⟨rfl, rfl⟩
  · intro hs
    rw [inject_if_new_append last o text w steps m h1 h2 (by omega)]
    exact ⟨rfl, rfl⟩

/-- Witness for `inject_branch_semantics`: a bag carrying an upstream
prompt and an old transition, injected into with steps 5 and steps 0. -/
theorem inject_branch_semantics_witness :
    (("cat" : String) ≠ "" ∧ ("cat" : String) ≠ "old" ∧ (0 : ℤ) < 5) ∧
    (inject_if_new "old" ⟨some [⟨"up", 1⟩], some ⟨[⟨"prev", 2⟩], 9, "linear"⟩⟩
        "cat" 100 5 "slerp").2.1.transition =
      some ⟨[⟨"cat", 100⟩], 5, "slerp"⟩ ∧
    (inject_if_new "old" ⟨some [⟨"up", 1⟩], some ⟨[⟨"prev", 2⟩], 9, "linear"⟩⟩
        "cat" 100 5 "slerp").2.1.prompts = some [⟨"up", 1⟩] ∧
    (inject_if_new "old" ⟨some [⟨"up", 1⟩], some ⟨[⟨"prev", 2⟩], 9, "linear"⟩⟩
        "cat" 100 0 "slerp").2.1.prompts = some ([⟨"up", 1⟩] ++ [⟨"cat", 100⟩]) ∧
    (inject_if_new "old" ⟨some [⟨"up", 1⟩], some ⟨[⟨"prev", 2⟩], 9, "linear"⟩⟩
        "cat" 100 0 "slerp").2.1.transition =
      some ⟨[⟨"prev", 2⟩], 9, "linear"⟩ := by
  have ht := inject_branch_semantics "old"
    ⟨some [⟨"up", 1⟩], some ⟨[⟨"prev", 2⟩], 9, "linear"⟩⟩ "cat" 100 5 "slerp"
    (by decide) (by decide)
  have ha := inject_branch_semantics "old"
    ⟨some [⟨"up", 1⟩], some ⟨[⟨"prev", 2⟩], 9, "linear"⟩⟩ "cat" 100 0 "slerp"
    (by decide) (by decide)
  exact ⟨⟨by decide, by decide, by decide⟩,
    (ht.1 (by decide)).1, (ht.1 (by decide)).2,
    (ha.2 rfl).1, (ha.2 rfl).2⟩

/-! ### Transport faults (`UDPSender.send`, `UDPReceiver._bind` in
`scope_bus/udp.py`) -/

/-- Outcome of the raw `socket.sendto` call: delivered, or raised. -/
def sendto_result (fault : Bool) : Except String Unit :=
  if fault then Except.error "OSError" else Except.ok ()

/-- `UDPSender.send`: the `sendto` call is wrapped in
`try/except Exception: logger.exception("UDP send failed")`, so the
method returns normally and the sender state (its port) is untouched
whether or not the transmission fails. -/
def send (s : SenderState) (fault : Bool) : Except String SenderState :=
  match sendto_result fault with
  | Except.ok _ => Except.ok s
  | Except.error _ => Except.ok s

/-- `UDPReceiver._bind`: creates a socket, binds it and joins the
multicast group; a bind failure (e.g. port in use) raises. The bound
socket is modelled by the port it joined. -/
def bind_sock (fault : Bool) (port : ℕ) : Except String ℕ :=
  if fault then Except.error "bind failed" else Except.ok port

/-- Mutable state of `UDPReceiver`: current port, bound socket (modelled
by its port), pending port proposal and its timestamp. -/
structure ReceiverState where
  port : ℕ
  sock : ℕ
  pending_port : Option ℕ
  port_changed_at : ℚ
deriving DecidableEq

/-- `UDPReceiver.__init__`: `self._sock = self._bind(port)` — a bind
failure propagates out of the constructor. -/
def receiver_init (fault : Bool) (port : ℕ) : Except String ReceiverState :=
  (bind_sock fault port).map fun sk =>
    { port := port, sock := sk, pending_port := none, port_changed_at := 0 }

/-- `UDPReceiver.update_port`: the same debounce as the sender; on commit
it closes the old socket, sets the new port and rebinds —
`self._sock = self._bind(new_port)` is not guarded by any `try`, so a
bind failure propagates to the caller. -/
def receiver_update_port (r : ReceiverState) (new_port : ℕ) (now : ℚ)
    (bind_fault : Bool) : Except String ReceiverState :=
  if new_port = r.port then Except.ok { r with pending_port := none }
  else if some new_port ≠ r.pending_port then
    Except.ok { r with pending_port := some new_port, port_changed_at := now }
  else if now - r.port_changed_at ≥ REBIND_DELAY then
    match bind_sock bind_fault new_port with
    | Except.ok sk =>
        Except.ok { r with port := new_port, sock := sk, pending_port := none }
    | Except.error e => Except.error e
  else Except.ok r

/-! ### Claim C9 -/

/-- Claim C9, counterexample: a bind failure at receiver setup or at a
committed rebind is not absorbed — both raise into the caller. -/
theorem rebind_failure_raises :
    receiver_update_port ⟨9400, 9400, some 9500, 0⟩ 9500 5 true =
      Except.error "bind failed" ∧
    receiver_init true 9400 = Except.error "bind failed" := by
  constructor
  · norm_num [receiver_update_port, bind_sock, REBIND_DELAY]
  · rfl

/-- Claim C9 (amended): a failed send is caught and logged and `send`
returns normally with the sender state (port) unchanged; but a socket
bind failure during receiver setup or during a committed rebind
propagates as an exception to the caller (it is not absorbed), while the
same commit with a healthy bind succeeds and rebinds. -/
theorem transport_fault_semantics (s : SenderState) (fault : Bool)
    (p : ℕ) (r : ReceiverState) (new_port : ℕ) (now : ℚ)
    (hv : new_port ≠ r.port) (hp : r.pending_port = some new_port)
    (ht : now - r.port_changed_at ≥ REBIND_DELAY) :
    send s fault = Except.ok s ∧
    receiver_init true p = Except.error "bind failed" ∧
    receiver_update_port r new_port now true = Except.error "bind failed" ∧
    receiver_update_port r new_port now false =
      Except.ok { r with port := new_port, sock := new_port,
                         pending_port := none } := by
  have hcond : ¬(some new_port ≠ r.pending_port) := by simp [hp]
  refine ⟨by cases fault <;> rfl, rfl, ?_, ?_⟩
  · simp only [receiver_update_port, if_neg hv, if_neg hcond, if_pos ht]
    rfl
  · simp only [receiver_update_port, if_neg hv, if_neg hcond, if_pos ht]
    rfl

/-- Witness for `transport_fault_semantics` at a concrete mid-debounce
receiver state. -/
theorem transport_fault_semantics_witness :
    ((9500 : ℕ) ≠ 9400 ∧ (5 : ℚ) - 0 ≥ REBIND_DELAY) ∧
    send ⟨9400, none, 0⟩ true = Except.ok ⟨9400, none, 0⟩ ∧
    receiver_init true 9400 = Except.error "bind failed" ∧
    receiver_update_port ⟨9400, 9400, some 9500, 0⟩ 9500 5 true =
      Except.error "bind failed" ∧
    receiver_update_port ⟨9400, 9400, some 9500, 0⟩ 9500 5 false =
      Except.ok ⟨9500, 9500, none, 0⟩ := by
  have h := transport_fault_semantics ⟨9400, none, 0⟩ true 9400
    ⟨9400, 9400, some 9500, 0⟩ 9500 5 (by decide) rfl
    (by norm_num [REBIND_DELAY])
  exact ⟨⟨by decide, by norm_num [REBIND_DELAY]⟩, h.1, h.2.1, h.2.2.1, h.2.2.2⟩

/-! ### UDP receive path (`UDPReceiver.poll` in `scope_bus/udp.py`)

`poll` drains the socket, decoding each datagram with `json.loads` and
falling back to the raw text, and keeps only the last one; the `latest`
variable starts as Python `None`. `jsonParse` below models `json.loads`
on the JSON subset without `\u` escapes, exponent number literals and the
non-standard `NaN`/`Infinity` extensions — enough for every payload this
development evaluates. -/

/-- A Python value as produced by `json.loads` (or a raw string payload).
`PyVal.null` is Python `None`. -/
inductive PyVal where
  | null
  | bool (b : Bool)
  | num (q : ℚ)
  | str (s : String)
  | arr (xs : List PyVal)
  | dict (kvs : List (String × PyVal))

/-- The characters `json.loads` treats as insignificant whitespace. -/
def isWsChar (c : Char) : Bool :=
  c = ' ' ∨ c = '\t' ∨ c = '\n' ∨ c = '\r'

def skipWs : List Char → List Char
  | [] => []
  | c :: cs => if isWsChar c then skipWs cs else c :: cs

/-- The opening brace character, `\x7b`. -/
def lbrace : Char := Char.ofNat 123

/-- The closing brace character, `\x7d`. -/
def rbrace : Char := Char.ofNat 125

/-- Body of a JSON string after the opening quote, with the common
escapes (`\u` sequences are not modelled). -/
def parseStringBody : List Char → Option (String × List Char)
  | [] => none
  | '"' :: rest => some ("", rest)
  | '\\' :: c :: rest =>
      let esc : Option Char :=
        if c = '"' then some '"'
        else if c = '\\' then some '\\'
        else if c = '/' then some '/'
        else if c = 'n' then some '\n'
        else if c = 't' then some '\t'
        else if c = 'r' then some '\r'
        else if c = 'b' then some (Char.ofNat 8)
        else if c = 'f' then some (Char.ofNat 12)
        else none
      match esc with
      | none => none
      | some e => (parseStringBody rest).map fun p => (⟨e :: p.1.data⟩, p.2)
  | c :: rest => (parseStringBody rest).map fun p => (⟨c :: p.1.data⟩, p.2)

def takeDigits : List Char → List Char × List Char
  | [] => ([], [])
  | c :: cs =>
      if c.isDigit then
        let p := takeDigits cs
        (c :: p.1, p.2)
      else ([], c :: cs)

def digitsToNat (ds : List Char) : ℕ :=
  ds.foldl (fun acc c => 10 * acc + (c.toNat - 48)) 0

/-- A JSON number: optional minus, integer part without leading zeros,
optional fraction (exponents are not modelled). -/
def parseNum (cs : List Char) : Option (ℚ × List Char) :=
  let signAndRest : Bool × List Char :=
    match cs with
    | '-' :: rest => (true, rest)
    | _ => (false, cs)
  let neg := signAndRest.1
  match takeDigits signAndRest.2 with
  | ([], _) => none
  | (ds, rest) =>
      if ds.length > 1 ∧ ds.head? = some '0' then none
      else
        let ip : ℚ := (digitsToNat ds : ℕ)
        match rest with
        | '.' :: rest₂ =>
            match takeDigits rest₂ with
            | ([], _) => none
            | (fs, rest₃) =>
                let v : ℚ := ip + (digitsToNat fs : ℕ) / ((10 : ℚ) ^ fs.length)
                some (if neg then -v else v, rest₃)
        | _ => some (if neg then -ip else ip, rest)

mutual

/-- One JSON value, recursive-descent with fuel. -/
def parseVal : ℕ → List Char → Option (PyVal × List Char)
  | 0, _ => none
  | fuel + 1, cs =>
      match skipWs cs with
      | 'n' :: 'u' :: 'l' :: 'l' :: rest => some (PyVal.null, rest)
      | 't' :: 'r' :: 'u' :: 'e' :: rest => some (PyVal.bool true, rest)
      | 'f' :: 'a' :: 'l' :: 's' :: 'e' :: rest => some (PyVal.bool false, rest)
      | '"' :: rest => (parseStringBody rest).map fun p => (PyVal.str p.1, p.2)
      | '[' :: rest =>
          (match skipWs rest with
           | ']' :: rest₂ => some (PyVal.arr [], rest₂)
           | _ => (parseItems fuel rest).map fun p => (PyVal.arr p.1, p.2))
      | c :: rest =>
          if c = lbrace then
            match skipWs rest with
            | [] => none
            | c₂ :: rest₂ =>
                if c₂ = rbrace then some (PyVal.dict [], rest₂)
                else (parsePairs fuel (c₂ :: rest₂)).map fun p =>
                  (PyVal.dict p.1, p.2)
          else (parseNum (c :: rest)).map fun p => (PyVal.num p.1, p.2)
      | [] => none

/-- One or more comma-separated array items followed by `]`. -/
def parseItems : ℕ → List Char → Option (List PyVal × List Char)
  | 0, _ => none
  | fuel + 1, cs =>
      match parseVal fuel cs with
      | none => none
      | some (v, rest) =>
          match skipWs rest with
          | ',' :: rest₂ => (parseItems fuel rest₂).map fun p => (v :: p.1, p.2)
          | ']' :: rest₂ => some ([v], rest₂)
          | _ => none

/-- One or more comma-separated `"key": value` pairs followed by `\x7d`. -/
def parsePairs : ℕ → List Char → Option (List (String × PyVal) × List Char)
  | 0, _ => none
  | fuel + 1, cs =>
      match skipWs cs with
      | '"' :: rest =>
          match parseStringBody rest with
          | none => none
          | some (k, rest₂) =>
              match skipWs rest₂ with
              | ':' :: rest₃ =>
                  match parseVal fuel rest₃ with
                  | none => none
                  | some (v, rest₄) =>
                      match skipWs rest₄ with
                      | ',' :: rest₅ =>
                          (parsePairs fuel rest₅).map fun p =>
                            ((k, v) :: p.1, p.2)
                      | c :: rest₅ =>
                          if c = rbrace then some ([(k, v)], rest₅) else none
                      | [] => none
              | _ => none
      | _ => none

end

/-- `json.loads`: a single JSON document with optional surrounding
whitespace; trailing content is an error. -/
def jsonParse (s : String) : Option PyVal :=
  match parseVal (s.length + 1) s.data with
  | some (v, rest) => if (skipWs rest).isEmpty then some v else none
  | none => none

/-- One drained datagram decoded as in `UDPReceiver.poll`: the parsed
JSON document if the payload parses, otherwise the raw text. -/
def recvDecode (text : String) : PyVal :=
  match jsonParse text with
  | some v => v
  | none => PyVal.str text

/-- `UDPReceiver.poll`: drain every queued datagram, oldest first,
keeping only the decoded latest; `latest` starts as Python `None` and is
overwritten by each drained datagram. -/
def poll (queue : List String) : PyVal :=
  queue.foldl (fun _ t => recvDecode t) PyVal.null

/-! ### Claims C8, C10 -/

/-- Claim C8: `poll` drains all currently queued datagrams and returns
only the most recently received one — decoded as JSON when the payload
parses as JSON and as the raw text otherwise — discarding every older
queued message, and a poll with nothing queued returns none. -/
theorem poll_last_write_wins (queue : List String) (m : String) (v : PyVal) :
    poll (queue ++ [m]) = recvDecode m ∧
    (jsonParse m = some v → poll (queue ++ [m]) = v) ∧
    (jsonParse m = none → poll (queue ++ [m]) = PyVal.str m) ∧
    poll [] = PyVal.null := by
  have h : poll (queue ++ [m]) = recvDecode m := by
    simp [poll, List.foldl_append]
  refine ⟨h, ?_, ?_, rfl⟩
  · intro hj
    rw [h]
    simp [recvDecode, hj]
  · intro hj
    rw [h]
    simp [recvDecode, hj]

/-- Witness for `poll_last_write_wins`: a JSON payload, an object payload
and a plain-text payload, each queued behind an older message. -/
theorem poll_last_write_wins_witness :
    jsonParse "true" = some (PyVal.bool true) ∧
    poll ["hello", "true"] = PyVal.bool true ∧
    jsonParse "\x7b\"response\": \"hi\"\x7d" =
      some (PyVal.dict [("response", PyVal.str "hi")]) ∧
    poll ["old", "\x7b\"response\": \"hi\"\x7d"] =
      PyVal.dict [("response", PyVal.str "hi")] ∧
    jsonParse "hi there" = none ∧
    poll ["true", "hi there"] = PyVal.str "hi there" ∧
    poll [] = PyVal.null :=
  ⟨rfl, (poll_last_write_wins ["hello"] "true" (PyVal.bool true)).2.1 rfl,
   rfl, (poll_last_write_wins ["old"] "\x7b\"response\": \"hi\"\x7d"
     (PyVal.dict [("response", PyVal.str "hi")])).2.1 rfl,
   rfl, (poll_last_write_wins ["true"] "hi there" PyVal.null).2.2.1 rfl,
   (poll_last_write_wins [] "x" PyVal.null).2.2.2⟩

/-- Claim C10: `poll` returns whatever JSON decoding yields for any
payload that parses as JSON — including scalar documents such as numbers,
booleans and null, not only objects; a datagram whose text is the literal
`"null"` makes the drain record Python `None`, so `poll` returns none as
if no message had arrived, while any earlier message queued in the same
drain is still discarded. -/
theorem poll_json_scalars (q : List String) (s : String) (v : PyVal) :
    (jsonParse s = some v → poll (q ++ [s]) = v) ∧
    jsonParse "null" = some PyVal.null ∧
    jsonParse "true" = some (PyVal.bool true) ∧
    jsonParse "7" = some (PyVal.num 7) ∧
    poll (q ++ ["null"]) = PyVal.null := by
  have hnull : recvDecode "null" = PyVal.null := rfl
  refine ⟨?_, rfl, rfl, rfl, ?_⟩
  · intro hj
    simp [poll, List.foldl_append, recvDecode, hj]
  · simp [poll, List.foldl_append, hnull]

/-- Witness for `poll_json_scalars`: a scalar number payload and a null
payload, each queued behind an older message that gets discarded. -/
theorem poll_json_scalars_witness :
    jsonParse "7" = some (PyVal.num 7) ∧
    poll ["first", "7"] = PyVal.num 7 ∧
    poll ["first", "null"] = PyVal.null :=
  ⟨rfl, (poll_json_scalars ["first"] "7" (PyVal.num 7)).1 rfl,
   (poll_json_scalars ["first"] "x" PyVal.null).2.2.2.2⟩
